import Mathlib

/-!
Verification development for the MeetAct meeting-notes pipeline.

The repository ships three server-side stages:
* the issue-tracker publisher (supabase/functions/push-to-jira/index.ts,
  request handler at the top of the file),
* the action-item extractor (supabase/functions/extract-actions/index.ts),
* the audio transcription handler (the Deno.serve handler bundled in the
  push-to-jira source file, together with its helper functions
  getFileName, inferMimeType, parseBase64Payload, parseGeminiJson,
  normalizeActionItems and shouldRetryWithFallbackModel).

Each stage is embedded as a pure Lean function over an explicit
environment that carries the outcomes of the external calls (identity
provider, storage, inference gateway, tracker REST API).  External calls
that a run performs are recorded in an explicit call log so that claims
of the form "zero external HTTP calls are made" become statements about
that log.  JavaScript dynamic values are modelled by an explicit JSON
value type with JavaScript truthiness; timestamps are modelled as
naturals; JSON.parse, a language builtin, is passed as a parameter
(only its failure or the shape of its result ever matters to the
claims).
-/

namespace MeetAct

/-- JSON values, as produced by JSON.parse.  Numbers are modelled as
rationals (the numeric literals appearing in the sources, such as the
0.8 confidence default, are exact decimals). -/
inductive JsonValue where
  | null
  | bool (b : Bool)
  | num (q : ℚ)
  | str (s : String)
  | arr (elems : List JsonValue)
  | obj (fields : List (String × JsonValue))

/-- JavaScript truthiness of a JSON value: null, false, 0 and the empty
string are falsy; every array and object is truthy. -/
def truthy : JsonValue → Bool
  | .null => false
  | .bool b => b
  | .num q => !(decide (q = 0))
  | .str s => !(decide (s = ""))
  | .arr _ => true
  | .obj _ => true

/-- Property access on a JSON object: the last binding of a key wins,
as JSON.parse keeps the last duplicate key. -/
def lookupField (fields : List (String × JsonValue)) (k : String) : Option JsonValue :=
  (fields.reverse.find? (fun p => p.1 == k)).map (fun p => p.2)

/-- JavaScript `a || b` for a possibly-absent field: the field value
when present and truthy, otherwise the default. -/
def jsOr (v : Option JsonValue) (d : JsonValue) : JsonValue :=
  match v with
  | some x => if truthy x then x else d
  | none => d

/-- JavaScript `a || null` for a possibly-absent field. -/
def jsOrNull (v : Option JsonValue) : JsonValue :=
  jsOr v .null

/-- JavaScript `a ?? b` for a possibly-absent field: the default is
used only for null or absent values. -/
def jsNullish (v : Option JsonValue) (d : JsonValue) : JsonValue :=
  match v with
  | some .null => d
  | some x => x
  | none => d

/-- Truthiness of a possibly-absent field, as a Bool. -/
def jsFalsyOpt (v : Option JsonValue) : Bool :=
  match v with
  | some x => !truthy x
  | none => true

/-- JavaScript `s || d` for a possibly-absent string: absent and the
empty string both fall through to the default. -/
def jsStrOr (v : Option String) (d : String) : String :=
  match v with
  | some s => if s = "" then d else s
  | none => d

/-- JavaScript falsiness of a possibly-absent string value. -/
def strFalsy (v : Option String) : Bool :=
  match v with
  | some s => decide (s = "")
  | none => true

/-- List-level check that the pattern list is a prefix of the second
list. -/
def isPrefixList : List Char → List Char → Bool
  | [], _ => true
  | _ :: _, [] => false
  | p :: ps, c :: cs => p = c && isPrefixList ps cs

/-- List-level check that the pattern list occurs contiguously inside
the second list. -/
def hasInfixList (p : List Char) : List Char → Bool
  | [] => p.isEmpty
  | c :: rest => isPrefixList p (c :: rest) || hasInfixList p rest

/-- String containment, the semantics of JavaScript
String.prototype.includes for a non-empty pattern. -/
def strContains (s pat : String) : Bool :=
  hasInfixList pat.data s.data

/-!
The remaining string primitives of the sources (trim, toLower, slice,
startsWith, endsWith, split) are given list-backed definitions so that
closed runs evaluate inside the kernel; each matches the JavaScript
primitive used by the source on the character sets the sources handle
(whitespace is the ordinary ASCII whitespace set).
-/

/-- Both-ends whitespace trim. -/
def sTrim (s : String) : String :=
  ⟨((s.data.dropWhile Char.isWhitespace).reverse.dropWhile Char.isWhitespace).reverse⟩

/-- Character-wise lowercasing. -/
def sToLower (s : String) : String :=
  ⟨s.data.map Char.toLower⟩

/-- Prefix test. -/
def sStartsWith (s p : String) : Bool :=
  isPrefixList p.data s.data

/-- Suffix test. -/
def sEndsWith (s p : String) : Bool :=
  isPrefixList p.data.reverse s.data.reverse

/-- First n characters. -/
def sTake (s : String) (n : Nat) : String :=
  ⟨s.data.take n⟩

/-- All but the first n characters. -/
def sDrop (s : String) (n : Nat) : String :=
  ⟨s.data.drop n⟩

/-- All but the last n characters. -/
def sDropRight (s : String) (n : Nat) : String :=
  ⟨s.data.take (s.data.length - n)⟩

/-- Longest prefix whose characters satisfy the test. -/
def sTakeWhile (s : String) (p : Char → Bool) : String :=
  ⟨s.data.takeWhile p⟩

/-- Splitting on a one-character separator, the semantics of the
JavaScript split calls of the sources. -/
def splitOnCharAux (sep : Char) : List Char → List Char → List (List Char)
  | [], acc => [acc.reverse]
  | c :: rest, acc =>
    if c = sep then acc.reverse :: splitOnCharAux sep rest []
    else splitOnCharAux sep rest (c :: acc)

/-- Splitting a string on a one-character separator. -/
def splitOnChar (sep : Char) (s : String) : List String :=
  (splitOnCharAux sep s.data []).map String.mk

end MeetAct

namespace MeetAct.Extract

/-!
Embedding of supabase/functions/extract-actions/index.ts.
-/

open MeetAct

/-- Raw candidate action item as the handler reads it off one element
of the parsed model reply: each field is a possibly-absent JSON value
(`none` models an absent property / undefined). -/
structure RawItem where
  actionItem : Option JsonValue
  owner : Option JsonValue
  ownerEmail : Option JsonValue
  deadline : Option JsonValue
  priority : Option JsonValue
  confidence : Option JsonValue
  notes : Option JsonValue

/-- Reading the properties of one parsed array element, following
JavaScript property-access semantics: objects yield their fields,
null would crash the map callback (modelled as `none` at this level),
and any other value yields only undefined properties. -/
def toRawItem : JsonValue → Option RawItem
  | .null => none
  | .obj fs =>
      some
        { actionItem := lookupField fs "actionItem"
          owner := lookupField fs "owner"
          ownerEmail := lookupField fs "ownerEmail"
          deadline := lookupField fs "deadline"
          priority := lookupField fs "priority"
          confidence := lookupField fs "confidence"
          notes := lookupField fs "notes" }
  | _ =>
      some
        { actionItem := none, owner := none, ownerEmail := none, deadline := none
          priority := none, confidence := none, notes := none }

/-- Insert rows are JavaScript objects; they are modelled as ordered
key/value lists. -/
def InsertRow : Type := List (String × JsonValue)

/-- The body of the itemsToInsert map in the extract-actions handler:
builds one storage row from one raw candidate, with the literal
defaults of the source (placeholder task text, Medium priority, Open
status, 0.8 confidence). -/
def toInsertRow (meetingId userId : String) (it : RawItem) : InsertRow :=
  [("meeting_id", .str meetingId),
   ("user_id", .str userId),
   ("action_item", jsOr it.actionItem (.str "Unnamed action")),
   ("owner", jsOrNull it.owner),
   ("owner_email", jsOrNull it.ownerEmail),
   ("deadline", jsOrNull it.deadline),
   ("priority", jsOr it.priority (.str "Medium")),
   ("status", .str "Open"),
   ("confidence", jsNullish it.confidence (.num (4/5))),
   ("notes", jsOrNull it.notes)]

/-- The itemsToInsert list of the extract-actions handler. -/
def itemsToInsert (meetingId userId : String) (items : List RawItem) : List InsertRow :=
  items.map (toInsertRow meetingId userId)

/-- Code-fence stripping applied to the model reply before JSON
parsing, exactly as in the handler: trim, drop a leading fence marker
(7 characters for a json-tagged fence, otherwise 3), drop a trailing
fence marker, trim again before parsing. -/
def stripFences (content : String) : String :=
  let j := sTrim content
  let j := if sStartsWith j "```json" then sDrop j 7
           else if sStartsWith j "```" then sDrop j 3
           else j
  let j := if sEndsWith j "```" then sDropRight j 3 else j
  sTrim j

/-- External calls the extract-actions handler can make: the inference
gateway request and the storage batch insert. -/
inductive ExtractCall where
  | inference
  | insert (rows : List InsertRow)

/-- Responses of the extract-actions handler, one constructor per
return site of the source. -/
inductive ExtractResponse where
  | badRequest (msg : String)
  | unauthorized
  | rateLimited
  | quotaExhausted
  | serverError (msg : String)
  | success (actionItems : List InsertRow) (count : Nat)

/-- HTTP status code attached to each extract-actions response. -/
def ExtractResponse.status : ExtractResponse → Nat
  | .badRequest _ => 400
  | .unauthorized => 401
  | .rateLimited => 429
  | .quotaExhausted => 402
  | .serverError _ => 500
  | .success _ _ => 200

/-- Environment of one extract-actions run: request fields, configured
secrets, the inference gateway outcome, the JSON.parse builtin (passed
as a parameter), the identity outcome and the storage outcome. -/
structure Env where
  transcript : Option String
  meetingId : Option String
  apiKeyPresent : Bool
  aiStatus : Nat
  content : Option String
  parse : String → Option JsonValue
  authHeader : Option String
  userOk : Bool
  userId : String
  insertFails : Bool

/-- Result of one run: the response together with the ordered log of
external calls performed. -/
structure Run where
  response : ExtractResponse
  calls : List ExtractCall

/-- The extract-actions request handler.  The order of the source is
kept: request validation, secret check, the inference gateway call,
fence stripping and parsing, and only then the authorization checks,
the normalization map and the batch insert. -/
def handler (env : Env) : Run :=
  if strFalsy env.transcript || strFalsy env.meetingId then
    ⟨.badRequest "Missing transcript or meetingId", []⟩
  else if !env.apiKeyPresent then
    ⟨.serverError "LOVABLE_API_KEY is not configured", []⟩
  else
    -- the gateway fetch is issued here, before any authorization check
    let log : List ExtractCall := [.inference]
    if !(200 ≤ env.aiStatus && env.aiStatus < 300) then
      if env.aiStatus = 429 then ⟨.rateLimited, log⟩
      else if env.aiStatus = 402 then ⟨.quotaExhausted, log⟩
      else ⟨.serverError ("AI gateway error: " ++ toString env.aiStatus), log⟩
    else
      let content := jsStrOr env.content "[]"
      let parsedItems : Option (List JsonValue) :=
        match env.parse (stripFences content) with
        | none => some []
        | some (.arr xs) => some xs
        | some _ => none
      match env.authHeader with
      | none => ⟨.unauthorized, log⟩
      | some _ =>
        if !env.userOk then ⟨.unauthorized, log⟩
        else
          match parsedItems with
          | none => ⟨.serverError "actionItems.map is not a function", log⟩
          | some xs =>
            match xs.mapM toRawItem with
            | none => ⟨.serverError "Unknown error", log⟩
            | some raws =>
              let rows := itemsToInsert (jsStrOr env.meetingId "") env.userId raws
              if rows.length > 0 then
                if env.insertFails then
                  ⟨.serverError "Unknown error", log ++ [.insert rows]⟩
                else
                  ⟨.success rows rows.length, log ++ [.insert rows]⟩
              else
                ⟨.success rows rows.length, log⟩

/-- Modelled from the spec: the relational store generates an
identifier for every persisted action-item row (the schema declares a
generated id column), so the persisted set of rows is the inserted
rows each extended with an id field. -/
def persistedRows (rows : List InsertRow) (genIds : List String) : List InsertRow :=
  rows.zipWith (fun r i => (("id", JsonValue.str i) :: r : InsertRow)) genIds

/-- A row carries a storage-generated identifier when it has an id
field. -/
def hasGeneratedId (r : InsertRow) : Bool :=
  (lookupField r "id").isSome

end MeetAct.Extract

namespace MeetAct.Publish

/-!
Embedding of the push-to-jira request handler
(supabase/functions/push-to-jira/index.ts): credential lookup and
validation, the per-item issue-creation loop and the final response.
-/

open MeetAct

/-- One element of the publish request actionItems array, with the
fields the handler reads. -/
structure PublishItem where
  id : String
  summary : String
  description : Option String
  dueDate : Option String
  priority : Option String
  deriving DecidableEq

/-- The stored integrations row for (user, jira), as declared by the
database schema: token, cloud identifier and expiry are all nullable.
Timestamps are modelled as naturals. -/
structure Integration where
  access_token : Option String
  cloud_id : Option String
  expires_at : Option Nat
  deriving DecidableEq

/-- Priority mapping used when building the issue payload: the three
enumerated names map to fixed identifiers, anything else falls back to
the Medium identifier. -/
def priorityId (p : Option String) : String :=
  match p with
  | some "High" => "1"
  | some "Medium" => "3"
  | some "Low" => "5"
  | _ => "3"

/-- The issue-creation payload built for one item.  The project key is
the hard-coded constant of the source; the stored credential plays no
part in it. -/
structure IssueData where
  projectKey : String
  summary : String
  descriptionText : String
  issuetype : String
  priorityIdField : String
  duedate : Option String

/-- Builds the issue payload for one item as the source does: constant
project key, pass-through summary, defaulted description, Task issue
type, mapped priority, and the due date truncated at the first T when
present. -/
def issueData (item : PublishItem) : IssueData :=
  { projectKey := "PROJECT"
    summary := item.summary
    descriptionText := jsStrOr item.description "Created from MeetAct"
    issuetype := "Task"
    priorityIdField := priorityId item.priority
    duedate :=
      match item.dueDate with
      | some d => if d = "" then none else some ((splitOnChar (Char.ofNat 84) d).headD "")
      | none => none }

/-- Outcome of one external issue-creation call: a success carrying
the created issue id and key, a non-success HTTP status, or a thrown
error (with its message when the thrown value is an Error). -/
inductive FetchOutcome where
  | ok (issueId issueKey : String)
  | bad (status : Nat)
  | thrown (errMsg : Option String)
  deriving DecidableEq

/-- Entry of the created list in the response. -/
structure CreatedIssue where
  id : String
  key : String
  summary : String
  deriving DecidableEq

/-- Entry of the errors list in the response. -/
structure ItemError where
  id : String
  error : String
  deriving DecidableEq

/-- Error description recorded for a failed creation call, matching
the two catch sites of the loop. -/
def errorDescription : FetchOutcome → Option String
  | .ok _ _ => none
  | .bad s => some ("Jira API error: " ++ toString s)
  | .thrown m => some (m.getD "Unknown error")

/-- Accumulated effects of the per-item loop: the created list, the
failure list, the indices of items for which an external call was
issued, and the external-key write-backs applied to action items. -/
structure LoopState where
  created : List CreatedIssue
  errors : List ItemError
  callIdxs : List Nat
  updates : List (String × String)

/-- The per-item loop of the handler, with the external call outcome
supplied per item index.  Every iteration issues exactly one external
call; a success records the created issue and writes the external key
back onto the local action item; a failure records the local id and an
error description and continues. -/
def publishLoopAux (fetch : Nat → FetchOutcome) (i : Nat) : List PublishItem → LoopState
  | [] => ⟨[], [], [], []⟩
  | it :: rest =>
    let r := publishLoopAux fetch (i + 1) rest
    match fetch i with
    | .ok issueId issueKey =>
        ⟨⟨issueId, issueKey, it.summary⟩ :: r.created, r.errors,
         i :: r.callIdxs, (it.id, issueKey) :: r.updates⟩
    | .bad s =>
        ⟨r.created, ⟨it.id, "Jira API error: " ++ toString s⟩ :: r.errors,
         i :: r.callIdxs, r.updates⟩
    | .thrown m =>
        ⟨r.created, ⟨it.id, m.getD "Unknown error"⟩ :: r.errors,
         i :: r.callIdxs, r.updates⟩

/-- The per-item loop started at index zero. -/
def publishLoop (fetch : Nat → FetchOutcome) (items : List PublishItem) : LoopState :=
  publishLoopAux fetch 0 items

/-- Responses of the publish handler, one constructor per return site
of the source. -/
inductive PublishResponse where
  | noItems
  | unauthorized
  | notConnected
  | tokenExpired
  | invalidConfig
  | success (created : List CreatedIssue) (errors : Option (List ItemError))
  deriving DecidableEq

/-- HTTP status code attached to each publish response. -/
def PublishResponse.status : PublishResponse → Nat
  | .noItems => 400
  | .unauthorized => 401
  | .notConnected => 400
  | .tokenExpired => 401
  | .invalidConfig => 400
  | .success _ _ => 200

/-- Human-readable error field of each non-success publish response,
matching the source messages. -/
def PublishResponse.errorText : PublishResponse → Option String
  | .noItems => some "No action items provided"
  | .unauthorized => some "Unauthorized"
  | .notConnected => some "Jira integration not found"
  | .tokenExpired => some "Jira token expired"
  | .invalidConfig => some "Invalid Jira integration configuration"
  | .success _ _ => none

/-- Environment of one publish run: the request (none models a missing
or non-array actionItems field), the bearer header, the identity
outcome, the stored integration row, the current time, and the
external call oracle indexed by item position. -/
structure Env where
  request : Option (List PublishItem)
  authHeader : Option String
  userOk : Bool
  integration : Option Integration
  now : Nat
  fetch : Nat → FetchOutcome

/-- Result of one publish run: the response, the indices of items for
which an external issue-creation call was issued, and the external-key
write-backs performed. -/
structure Run where
  response : PublishResponse
  callIdxs : List Nat
  updates : List (String × String)

/-- Expiry check of the handler: the stored credential is expired when
it carries an expiry timestamp strictly earlier than now. -/
def expired (integ : Integration) (now : Nat) : Bool :=
  match integ.expires_at with
  | some t => decide (t < now)
  | none => false

/-- The push-to-jira request handler.  The order of the source is
kept: request validation, bearer header, identity, integration lookup,
expiry check, structural credential check (access token and cloud id
only), then the per-item loop and the always-success final response
with the errors list included only when non-empty. -/
def handler (env : Env) : Run :=
  match env.request with
  | none => ⟨.noItems, [], []⟩
  | some items =>
    if items.isEmpty then ⟨.noItems, [], []⟩
    else
      match env.authHeader with
      | none => ⟨.unauthorized, [], []⟩
      | some _ =>
        if !env.userOk then ⟨.unauthorized, [], []⟩
        else
          match env.integration with
          | none => ⟨.notConnected, [], []⟩
          | some integ =>
            if expired integ env.now then ⟨.tokenExpired, [], []⟩
            else if strFalsy integ.access_token || strFalsy integ.cloud_id then
              ⟨.invalidConfig, [], []⟩
            else
              let r := publishLoop env.fetch items
              ⟨.success r.created (if r.errors.isEmpty then none else some r.errors),
               r.callIdxs, r.updates⟩

/-- Expected created list stated by the specification: one entry, in
order, for each item whose external call succeeded. -/
def expectedCreated (fetch : Nat → FetchOutcome) (items : List PublishItem) :
    List CreatedIssue :=
  (items.enumFrom 0).filterMap fun p =>
    match fetch p.1 with
    | .ok a k => some ⟨a, k, p.2.summary⟩
    | _ => none

/-- Expected failure list stated by the specification: one entry with
the local id and an error description, in order, for each item whose
external call returned a non-success status or threw. -/
def expectedErrors (fetch : Nat → FetchOutcome) (items : List PublishItem) :
    List ItemError :=
  (items.enumFrom 0).filterMap fun p =>
    match fetch p.1 with
    | .ok _ _ => none
    | .bad s => some ⟨p.2.id, "Jira API error: " ++ toString s⟩
    | .thrown m => some ⟨p.2.id, m.getD "Unknown error"⟩

/-- Expected external-key write-backs stated by the specification:
exactly the items whose external call succeeded, each paired with the
created issue key. -/
def expectedUpdates (fetch : Nat → FetchOutcome) (items : List PublishItem) :
    List (String × String) :=
  (items.enumFrom 0).filterMap fun p =>
    match fetch p.1 with
    | .ok _ k => some (p.2.id, k)
    | _ => none

end MeetAct.Publish

namespace MeetAct.Transcribe

/-!
Embedding of the audio transcription handler (the Deno.serve handler
in the push-to-jira source file) and its helper functions.
-/

open MeetAct

/-- Primary model identifier constant of the source. -/
def DEFAULT_GEMINI_MODEL : String := "gemini-1.5-flash"

/-- Fixed secondary model identifier constant of the source. -/
def FALLBACK_GEMINI_MODEL : String := "gemini-1.5-flash-latest"

/-- Maximum decoded payload size constant of the source, 25 MB. -/
def MAX_AUDIO_BYTES : Nat := 25 * 1024 * 1024

/-- Last segment of a slash-separated path, with the fallback constant
of the source when the last segment is empty. -/
def lastSegment (s : String) : String :=
  jsStrOr (some ((splitOnChar (Char.ofNat 47) s).getLastD "")) "meeting-audio"

/-- Display-name resolution of the source getFileName helper.  The URL
pathname of the audioUrl branch comes from the URL builtin and is
supplied by the environment; none models a URL constructor throw. -/
def getFileName (filePath audioUrl explicitFileName : Option String)
    (urlPathname : Option String) : String :=
  let fromPathOrUrl :=
    if !(strFalsy filePath) then lastSegment ((filePath).getD "")
    else if !(strFalsy audioUrl) then
      match urlPathname with
      | some pn => lastSegment pn
      | none => "meeting-audio"
    else "meeting-audio"
  match explicitFileName with
  | some n => if sTrim n ≠ "" then sTrim n else fromPathOrUrl
  | none => fromPathOrUrl

/-- Extension-based media type table of the source inferMimeType
helper, applied to the lowercased file name, with the audio/mpeg
default. -/
def extMimeType (fileName : String) : String :=
  let lowerName := sToLower fileName
  if sEndsWith lowerName ".wav" then "audio/wav"
  else if sEndsWith lowerName ".m4a" then "audio/mp4"
  else if sEndsWith lowerName ".mp3" then "audio/mpeg"
  else if sEndsWith lowerName ".ogg" then "audio/ogg"
  else if sEndsWith lowerName ".webm" then "audio/webm"
  else "audio/mpeg"

/-- Media type inference of the source inferMimeType helper: a
non-blank caller-supplied type wins (trimmed), otherwise the extension
table applies. -/
def inferMimeType (fileName : String) (providedMimeType : Option String) : String :=
  match providedMimeType with
  | some p => if sTrim p ≠ "" then sTrim p else extMimeType fileName
  | none => extMimeType fileName

/-- Line terminators that the dot of a JavaScript regular expression
does not match. -/
def isLineTerm (c : Char) : Bool :=
  c = '\n' || c = '\r' || c = Char.ofNat 0x2028 || c = Char.ofNat 0x2029

/-- The data-URI regular expression of parseBase64Payload: the input
matches data colon, a non-empty media type free of semicolons, the
base64 marker and a non-empty payload free of line terminators; the
literal markers match case-insensitively and the two groups are
captured verbatim. -/
def parseDataUrl (s : String) : Option (String × String) :=
  if sToLower (sTake s 5) = "data:" then
    let rest := sDrop s 5
    let mime := sTakeWhile rest (fun c => c ≠ ';')
    if mime = "" then none
    else
      let afterMime := sDrop rest mime.length
      if sStartsWith afterMime ";" then
        let afterSemi := sDrop afterMime 1
        if sToLower (sTake afterSemi 7) = "base64," then
          let data := sDrop afterSemi 7
          if data ≠ "" && data.data.all (fun c => !isLineTerm c) then
            some (mime, data)
          else none
        else none
      else none
  else none

/-- The source parseBase64Payload helper: a blank or absent payload
yields empty data with the fallback type; a data-URI yields its
embedded media type and payload; anything else is passed through
trimmed with the fallback type. -/
def parseBase64Payload (rawBase64 : Option String) (fallbackMimeType : Option String) :
    String × Option String :=
  match rawBase64 with
  | none => ("", fallbackMimeType)
  | some r =>
    if sTrim r = "" then ("", fallbackMimeType)
    else
      let trimmed := sTrim r
      match parseDataUrl trimmed with
      | some (mime, data) => (data, some mime)
      | none => (trimmed, fallbackMimeType)

/-- The media type resolution performed by the handler right after
identity checks: infer from the explicit type or the file name, then
let a data-URI embedded type override it.  Returns the resolved
payload and the resolved media type. -/
def resolveAudioMeta (resolvedFileName : String)
    (requestedMimeType audioBase64 : Option String) : String × String :=
  let m1 := inferMimeType resolvedFileName requestedMimeType
  let p := parseBase64Payload audioBase64 (some m1)
  (p.1, jsStrOr p.2 m1)

/-- Estimated decoded byte count of the handler: three quarters of the
base64 character count, rounded down. -/
def estimatedAudioBytes (encodedLength : Nat) : Nat :=
  encodedLength * 3 / 4

/-- The payload-size gate of the handler. -/
def audioTooLarge (encodedLength : Nat) : Bool :=
  decide (estimatedAudioBytes encodedLength > MAX_AUDIO_BYTES)

/-- Length of the RFC 4648 padded base64 encoding of a payload of n
bytes (the output shape of btoa, used by the source toBase64 helper
and by typical data URIs). -/
def paddedB64Len (n : Nat) : Nat :=
  4 * ((n + 2) / 3)

/-- Length of the unpadded base64 encoding of a payload of n bytes. -/
def unpaddedB64Len (n : Nat) : Nat :=
  (4 * n + 2) / 3

/-- A thrown JavaScript value: an Error with its message, or any other
value. -/
inductive JsError where
  | error (message : String)
  | other
  deriving DecidableEq

/-- The source shouldRetryWithFallbackModel helper: only Error values
retry, and only when the lowercased message mentions the model
together with one of the rejection phrases. -/
def shouldRetryWithFallbackModel : JsError → Bool
  | .other => false
  | .error message =>
    let m := sToLower message
    strContains m "model" &&
      (strContains m "not found" || strContains m "unsupported" ||
       strContains m "is not found" || strContains m "permission denied")

/-- Message attached to the 500 response by the outer catch. -/
def catchMessage : JsError → String
  | .error m => m
  | .other => "Transcription failed"

/-- The source parseGeminiJson helper: trim, return null on an empty
reply, strip one leading and one trailing code fence, and parse with
the JSON.parse builtin (supplied as a parameter), yielding null when
parsing throws. -/
def parseGeminiJson (parse : String → Option JsonValue) (raw : String) :
    Option JsonValue :=
  let trimmed := sTrim raw
  if trimmed = "" then none
  else
    let n0 := trimmed
    let n1 := if sStartsWith n0 "```json" then sDrop n0 7
              else if sStartsWith n0 "```" then sDrop n0 3
              else n0
    let n2 := if sEndsWith n1 "```" then sDropRight n1 3 else n1
    parse (sTrim n2)

/-- Normalized candidate action item of the transcription stage, the
output shape of the source normalizeActionItems helper. -/
structure CandidateItem where
  actionItem : String
  owner : Option String
  deadline : Option String
  priority : Option String
  notes : Option String
  deriving DecidableEq

/-- String projection of a field: a string value passes through,
anything else becomes null. -/
def strOrNullField (v : Option JsonValue) : Option String :=
  match v with
  | some (.str s) => some s
  | _ => none

/-- The map callback of normalizeActionItems: null and non-object
values are discarded; objects (arrays included, as their runtime type
is object) are projected field by field with missing task text
becoming the empty string. -/
def normalizeOne : JsonValue → Option CandidateItem
  | .null => none
  | .obj fs =>
      some
        { actionItem :=
            match lookupField fs "actionItem" with
            | some (.str s) => s
            | _ => ""
          owner := strOrNullField (lookupField fs "owner")
          deadline := strOrNullField (lookupField fs "deadline")
          priority := strOrNullField (lookupField fs "priority")
          notes := strOrNullField (lookupField fs "notes") }
  | .arr _ =>
      some { actionItem := "", owner := none, deadline := none, priority := none, notes := none }
  | _ => none

/-- The source normalizeActionItems helper: a non-array input yields
the empty list; array elements are projected and every candidate whose
task text is empty is dropped by the final filter. -/
def normalizeActionItems (value : Option JsonValue) : List CandidateItem :=
  match value with
  | some (.arr xs) =>
      xs.filterMap (fun v =>
        match normalizeOne v with
        | some c => if c.actionItem ≠ "" then some c else none
        | none => none)
  | _ => []

/-- Outcome of a storage download or of the audio URL fetch: the
fetched bytes are carried already base64-encoded (the source encodes
them with toBase64/btoa immediately), together with the blob media
type reported by the transport. -/
inductive BytesOutcome where
  | ok (encoded : String) (blobType : String)
  | fail (detail : String)
  deriving DecidableEq

/-- Responses of the transcription handler, one constructor per return
site of the source.  Success carries the transcript, the summary, the
normalized candidate items, the meeting write-back outcome and the
model that produced the reply. -/
inductive TranscribeResponse where
  | badRequest (msg : String)
  | unauthorized
  | tooLarge
  | serverError (msg : String)
  | success (transcript : String) (meetingSummary : Option String)
      (actionItems : List CandidateItem) (meetingUpdated : Bool)
      (meetingId : Option String) (model : String)
  deriving DecidableEq

/-- HTTP status code attached to each transcription response. -/
def TranscribeResponse.status : TranscribeResponse → Nat
  | .badRequest _ => 400
  | .unauthorized => 401
  | .tooLarge => 413
  | .serverError _ => 500
  | .success _ _ _ _ _ _ => 200

/-- Environment of one transcription run: request fields, configured
secrets, identity outcome, the URL pathname computed by the URL
builtin for the audioUrl branch, storage and URL fetch outcomes, the
inference oracle per model name, the JSON.parse builtin, and the
meeting write-back outcome (an error message, or the updated meeting
id when one was located). -/
structure Env where
  audioUrl : Option String
  filePath : Option String
  meetingId : Option String
  audioBase64 : Option String
  mimeType : Option String
  fileName : Option String
  geminiModelEnv : Option String
  apiKeyPresent : Bool
  supabaseConfigured : Bool
  authHeader : Option String
  userOk : Bool
  urlPathname : Option String
  storage : BytesOutcome
  urlFetch : BytesOutcome
  generate : String → Except JsError String
  parse : String → Option JsonValue
  meetingWrite : Except String (Option String)

/-- Result of one transcription run: the response together with the
ordered list of model identifiers for which an inference call was
issued. -/
structure Run where
  response : TranscribeResponse
  modelCalls : List String

/-- Input validation and payload resolution of the handler, every step
before the size gate: request shape, secrets, identity, name and media
type resolution, inline payload parsing, and the storage or URL
download fallbacks.  Returns the resolved payload and media type, or
the early response. -/
def transcribeResolve (env : Env) : Except TranscribeResponse (String × String) :=
  if strFalsy env.audioUrl && strFalsy env.filePath && strFalsy env.audioBase64 then
    .error (.badRequest "Missing audio input. Provide one of: filePath, audioUrl, or audioBase64")
  else if !env.apiKeyPresent then
    .error (.serverError "GEMINI_API_KEY (or GOOGLE_API_KEY) is not configured")
  else
    match env.authHeader with
    | none => .error .unauthorized
    | some _ =>
      if !env.supabaseConfigured then
        .error (.serverError "Supabase environment variables are not configured")
      else if !env.userOk then
        .error .unauthorized
      else
        let resolvedFileName := getFileName env.filePath env.audioUrl env.fileName env.urlPathname
        let meta := resolveAudioMeta resolvedFileName env.mimeType env.audioBase64
        let encodedAudio := meta.1
        let resolvedMimeType := meta.2
        if encodedAudio = "" && !(strFalsy env.filePath) then
          match env.storage with
          | .fail detail => .error (.serverError ("Failed to download audio file: " ++ detail))
          | .ok enc blobType =>
            let m := jsStrOr (some blobType) (inferMimeType resolvedFileName env.mimeType)
            if enc = "" then .error (.serverError "Failed to read audio payload")
            else .ok (enc, m)
        else if encodedAudio = "" && !(strFalsy env.audioUrl) then
          match env.urlFetch with
          | .fail detail => .error (.serverError ("Failed to fetch audio URL: " ++ detail))
          | .ok enc blobType =>
            let m := jsStrOr (some blobType) (inferMimeType resolvedFileName env.mimeType)
            if enc = "" then .error (.serverError "Failed to read audio payload")
            else .ok (enc, m)
        else if encodedAudio = "" then
          .error (.serverError "Failed to read audio payload")
        else .ok (encodedAudio, resolvedMimeType)

/-- Response construction after a successful inference reply: parse
the reply, fall back to the raw text as transcript, reject an empty
transcript, run the meeting write-back section when a meeting id or an
audio URL is given, and assemble the success payload. -/
def finishTranscription (env : Env) (geminiText usedModel : String) : TranscribeResponse :=
  let parsed := parseGeminiJson env.parse geminiText
  let transcript :=
    sTrim (match parsed with
     | some v =>
       if truthy v then
         match v with
         | .obj fs =>
           match lookupField fs "transcript" with
           | some (.str s) => s
           | _ => geminiText
         | _ => geminiText
       else geminiText
     | none => geminiText)
  let meetingSummary :=
    match parsed with
    | some v =>
      if truthy v then
        match v with
        | .obj fs =>
          match lookupField fs "meetingSummary" with
          | some (.str s) => some (sTrim s)
          | _ => none
        | _ => none
      else none
    | none => none
  let actionItems :=
    normalizeActionItems
      (parsed.bind (fun v =>
        match v with
        | .obj fs => lookupField fs "actionItems"
        | _ => none))
  if transcript = "" then
    .serverError "Gemini transcription returned empty transcript"
  else
    if !(strFalsy env.meetingId) || !(strFalsy env.audioUrl) then
      match env.meetingWrite with
      | .error m => .serverError ("Failed to update meeting: " ++ m)
      | .ok updatedId =>
        .success transcript meetingSummary actionItems updatedId.isSome updatedId usedModel
    else
      .success transcript meetingSummary actionItems false none usedModel

/-- The transcription request handler: payload resolution, the size
gate, the primary inference call, the single fallback retry when the
primary failure matches the model-rejection pattern, and the response
construction.  The model call log records the model identifiers in
call order. -/
def transcribeRun (env : Env) : Run :=
  match transcribeResolve env with
  | .error r => ⟨r, []⟩
  | .ok meta =>
    let encodedAudio := meta.1
    if audioTooLarge encodedAudio.length then ⟨.tooLarge, []⟩
    else
      let configuredModel := jsStrOr env.geminiModelEnv DEFAULT_GEMINI_MODEL
      match env.generate configuredModel with
      | .ok t => ⟨finishTranscription env t configuredModel, [configuredModel]⟩
      | .error e =>
        if shouldRetryWithFallbackModel e then
          match env.generate FALLBACK_GEMINI_MODEL with
          | .ok t =>
            ⟨finishTranscription env t FALLBACK_GEMINI_MODEL,
             [configuredModel, FALLBACK_GEMINI_MODEL]⟩
          | .error e2 =>
            ⟨.serverError (catchMessage e2), [configuredModel, FALLBACK_GEMINI_MODEL]⟩
        else ⟨.serverError (catchMessage e), [configuredModel]⟩

end MeetAct.Transcribe

namespace MeetAct.Inputs

/-!
Concrete inputs used by the closed witness and counterexample
theorems below.
-/

open MeetAct Publish Extract Transcribe

/-- Three publish items; the middle one will receive a simulated 500
from the tracker. -/
def itemsC1 : List PublishItem :=
  [{ id := "a1", summary := "Draft the rollout plan", description := none,
     dueDate := none, priority := some "High" },
   { id := "b2", summary := "Review API docs", description := none,
     dueDate := none, priority := some "Medium" },
   { id := "c3", summary := "Schedule retro", description := none,
     dueDate := none, priority := none }]

/-- Publish run with a valid credential where the second item fails
with a 500 and the others succeed. -/
def envC1 : Publish.Env :=
  { request := some itemsC1
    authHeader := some "Bearer jwt"
    userOk := true
    integration := some { access_token := some "tok", cloud_id := some "cloud-1", expires_at := none }
    now := 1000
    fetch := fun i =>
      if i = 1 then .bad 500
      else .ok ("1000" ++ toString i) ("PROJECT-" ++ toString (i + 1)) }

/-- One-item publish request reused by the expiry and configuration
runs. -/
def itemsOne : List PublishItem :=
  [{ id := "a1", summary := "Draft the rollout plan", description := none,
     dueDate := none, priority := some "High" }]

/-- Publish run whose stored credential expired in the past. -/
def envC10 : Publish.Env :=
  { request := some itemsOne
    authHeader := some "Bearer jwt"
    userOk := true
    integration := some { access_token := some "tok", cloud_id := some "cloud-1", expires_at := some 500 }
    now := 1000
    fetch := fun _ => .ok "10000" "PROJECT-1" }

/-- Publish run whose stored credential carries a token and a cloud id
but, like every row of the integrations table, has no project-key or
account-email field; the external call would succeed. -/
def envC4 : Publish.Env :=
  { request := some itemsOne
    authHeader := some "Bearer jwt"
    userOk := true
    integration := some { access_token := some "tok", cloud_id := some "cloud-1", expires_at := none }
    now := 1000
    fetch := fun _ => .ok "10000" "PROJECT-1" }

/-- Publish run whose stored credential is missing the access token. -/
def envC4missing : Publish.Env :=
  { request := some itemsOne
    authHeader := some "Bearer jwt"
    userOk := true
    integration := some { access_token := none, cloud_id := some "cloud-1", expires_at := none }
    now := 1000
    fetch := fun _ => .ok "10000" "PROJECT-1" }

/-- Raw candidate with every field absent. -/
def rawEmpty : Extract.RawItem :=
  { actionItem := none, owner := none, ownerEmail := none, deadline := none
    priority := none, confidence := none, notes := none }

/-- Raw candidate with a task text and an unrecognized priority. -/
def rawUrgent : Extract.RawItem :=
  { actionItem := some (.str "Fix build"), owner := none, ownerEmail := none
    deadline := none, priority := some (.str "Urgent"), confidence := none, notes := none }

/-- Extraction run whose model reply does not parse as JSON. -/
def envC3 : Extract.Env :=
  { transcript := some "John: ship it by Friday"
    meetingId := some "m1"
    apiKeyPresent := true
    aiStatus := 200
    content := some "The meeting went well, no JSON here"
    parse := fun _ => none
    authHeader := some "Bearer jwt"
    userOk := true
    userId := "u1"
    insertFails := false }

/-- Extraction run with a valid transcript and meeting id but no
Authorization header; the gateway reply parses fine. -/
def envC9 : Extract.Env :=
  { transcript := some "John: ship it by Friday"
    meetingId := some "m1"
    apiKeyPresent := true
    aiStatus := 200
    content := some "[]"
    parse := fun _ => none
    authHeader := none
    userOk := true
    userId := "u1"
    insertFails := false }

/-- Extraction run whose model reply parses to one action item. -/
def envC6 : Extract.Env :=
  { transcript := some "John: ship it by Friday"
    meetingId := some "m1"
    apiKeyPresent := true
    aiStatus := 200
    content := some "[irrelevant, the parse outcome is fixed below]"
    parse := fun _ => some (.arr [.obj [("actionItem", .str "Ship it")]])
    authHeader := some "Bearer jwt"
    userOk := true
    userId := "u1"
    insertFails := false }

/-- The single row the envC6 run hands to storage and returns. -/
def rowC6 : Extract.InsertRow :=
  [("meeting_id", .str "m1"),
   ("user_id", .str "u1"),
   ("action_item", .str "Ship it"),
   ("owner", .null),
   ("owner_email", .null),
   ("deadline", .null),
   ("priority", .str "Medium"),
   ("status", .str "Open"),
   ("confidence", .num (4/5)),
   ("notes", .null)]

/-- Transcription run with a tiny inline payload and a successful
primary model call. -/
def envTiny : Transcribe.Env :=
  { audioUrl := none, filePath := none, meetingId := none
    audioBase64 := some "AAAA", mimeType := none, fileName := none
    geminiModelEnv := none, apiKeyPresent := true, supabaseConfigured := true
    authHeader := some "Bearer jwt", userOk := true, urlPathname := none
    storage := .fail "unknown error", urlFetch := .fail "404"
    generate := fun _ => .ok "hello transcript"
    parse := fun _ => none
    meetingWrite := .ok none }

/-- Transcription run whose primary model call fails with a
model-rejection message and whose fallback call succeeds. -/
def envC8match : Transcribe.Env :=
  { audioUrl := none, filePath := none, meetingId := none
    audioBase64 := some "AAAA", mimeType := none, fileName := none
    geminiModelEnv := none, apiKeyPresent := true, supabaseConfigured := true
    authHeader := some "Bearer jwt", userOk := true, urlPathname := none
    storage := .fail "unknown error", urlFetch := .fail "404"
    generate := fun mdl =>
      if mdl = Transcribe.DEFAULT_GEMINI_MODEL then
        .error (.error "Model gemini-1.5-flash is not found for API version v1")
      else .ok "hello transcript"
    parse := fun _ => none
    meetingWrite := .ok none }

/-- Transcription run whose primary model call fails with an
unrelated error. -/
def envC8other : Transcribe.Env :=
  { audioUrl := none, filePath := none, meetingId := none
    audioBase64 := some "AAAA", mimeType := none, fileName := none
    geminiModelEnv := none, apiKeyPresent := true, supabaseConfigured := true
    authHeader := some "Bearer jwt", userOk := true, urlPathname := none
    storage := .fail "unknown error", urlFetch := .fail "404"
    generate := fun _ => .error (.error "quota exceeded")
    parse := fun _ => none
    meetingWrite := .ok none }

end MeetAct.Inputs

namespace MeetAct

open Publish Extract Transcribe

/-! Helper lemmas. -/

/-- The per-item loop computes, in one pass, the created list, the
failure list, the call log and the write-back list, each equal to an
independent projection of the item list paired with its call
outcomes. -/
theorem publishLoopAux_spec (fetch : Nat → FetchOutcome)
    (items : List PublishItem) :
    ∀ i : Nat,
      publishLoopAux fetch i items =
        ⟨(items.enumFrom i).filterMap (fun p =>
            match fetch p.1 with
            | .ok a k => some ⟨a, k, p.2.summary⟩
            | _ => none),
         (items.enumFrom i).filterMap (fun p =>
            match fetch p.1 with
            | .ok _ _ => none
            | .bad s => some ⟨p.2.id, "Jira API error: " ++ toString s⟩
            | .thrown m => some ⟨p.2.id, m.getD "Unknown error"⟩),
         (items.enumFrom i).map (fun p => p.1),
         (items.enumFrom i).filterMap (fun p =>
            match fetch p.1 with
            | .ok _ k => some (p.2.id, k)
            | _ => none)⟩ := by
  induction items with
  | nil => intro i; rfl
  | cons it rest ih =>
    intro i
    simp only [publishLoopAux, ih (i + 1), List.enumFrom, List.filterMap_cons,
      List.map_cons]
    cases h : fetch i <;> simp [h]

end MeetAct


namespace MeetAct

/-! Claim C1: publisher per-item independence and partial-failure
reporting. -/

/-- C1: for every publish request with a valid stored tracker
credential and a non-empty item list, per-item outcomes are
independent: every item receives its own external call, each item
whose creation call returns a non-success status or throws contributes
exactly one failure entry carrying its local id and an error
description while processing continues, the response is the non-error
success outcome carrying the created list and the errors list only
when non-empty (even when every item failed), and the external key is
written back onto the local action item exactly for the items whose
call succeeded. -/
theorem publish_partial_failure_independent (env : Publish.Env)
    (items : List Publish.PublishItem) (a : String)
    (hreq : env.request = some items) (hne : items ≠ [])
    (hauth : env.authHeader = some a) (huser : env.userOk = true)
    (integ : Publish.Integration) (hinteg : env.integration = some integ)
    (hexp : Publish.expired integ env.now = false)
    (htok : strFalsy integ.access_token = false)
    (hcld : strFalsy integ.cloud_id = false) :
    (Publish.handler env).response =
      .success (Publish.expectedCreated env.fetch items)
        (if (Publish.expectedErrors env.fetch items).isEmpty then none
         else some (Publish.expectedErrors env.fetch items))
    ∧ (Publish.handler env).updates = Publish.expectedUpdates env.fetch items
    ∧ (Publish.handler env).callIdxs = (items.enumFrom 0).map (fun p => p.1) := by
  have hempty : items.isEmpty = false := by
    cases items with
    | nil => exact absurd rfl hne
    | cons x xs => rfl
  simp only [Publish.handler, hreq, hempty, hauth, huser, hinteg, hexp, htok, hcld,
    Bool.not_true, Bool.false_or, Bool.or_self, Bool.false_eq_true, reduceIte,
    Publish.publishLoop, publishLoopAux_spec env.fetch items 0]
  refine ⟨?_, ?_, ?_⟩ <;>
    simp [Publish.expectedCreated, Publish.expectedErrors, Publish.expectedUpdates]

end MeetAct

namespace MeetAct

/-- Witness for C1: on the three-item run where item 2 fails with a
simulated 500, the response reports two created entries and exactly
one error entry carrying the id of item 2, and only items 1 and 3 get
their external key written back. -/
theorem publish_partial_failure_witness :
    (Publish.handler Inputs.envC1).response =
      .success
        [{ id := "10000", key := "PROJECT-1", summary := "Draft the rollout plan" },
         { id := "10002", key := "PROJECT-3", summary := "Schedule retro" }]
        (some [{ id := "b2", error := "Jira API error: 500" }])
    ∧ (Publish.handler Inputs.envC1).updates =
        [("a1", "PROJECT-1"), ("c3", "PROJECT-3")]
    ∧ (Publish.handler Inputs.envC1).callIdxs = [0, 1, 2] := by
  have h := publish_partial_failure_independent Inputs.envC1 Inputs.itemsC1 "Bearer jwt"
    rfl (by simp [Inputs.itemsC1]) rfl rfl
    { access_token := some "tok", cloud_id := some "cloud-1", expires_at := none }
    rfl rfl rfl rfl
  simpa [Publish.expectedCreated, Publish.expectedErrors, Publish.expectedUpdates,
    Inputs.itemsC1, Inputs.envC1, List.enumFrom] using h

end MeetAct

namespace MeetAct

/-! Claim C10: expired stored credential. -/

/-- C10: for every publish request whose stored credential carries an
expiry timestamp strictly earlier than the current time, the handler
returns the dedicated token-expired outcome with status 401 — an
outcome distinct, in constructor, status-and-message, from both the
not-connected and the invalid-configuration outcomes — performs zero
external issue-creation calls and performs no external-key
write-backs. -/
theorem publish_expired_token (env : Publish.Env)
    (items : List Publish.PublishItem) (a : String)
    (integ : Publish.Integration) (t : Nat)
    (hreq : env.request = some items) (hne : items ≠ [])
    (hauth : env.authHeader = some a) (huser : env.userOk = true)
    (hinteg : env.integration = some integ)
    (hexp : integ.expires_at = some t) (hlt : t < env.now) :
    (Publish.handler env).response = .tokenExpired
    ∧ (Publish.handler env).response.status = 401
    ∧ (Publish.handler env).callIdxs = []
    ∧ (Publish.handler env).updates = []
    ∧ Publish.PublishResponse.tokenExpired ≠ .notConnected
    ∧ Publish.PublishResponse.tokenExpired ≠ .invalidConfig
    ∧ Publish.PublishResponse.errorText .tokenExpired ≠
        Publish.PublishResponse.errorText .notConnected
    ∧ Publish.PublishResponse.errorText .tokenExpired ≠
        Publish.PublishResponse.errorText .invalidConfig := by
  have hempty : items.isEmpty = false := by
    cases items with
    | nil => exact absurd rfl hne
    | cons x xs => rfl
  have hx : Publish.expired integ env.now = true := by
    simp [Publish.expired, hexp, hlt]
  simp [Publish.handler, hreq, hempty, hauth, huser, hinteg, hx,
    Publish.PublishResponse.status, Publish.PublishResponse.errorText]

/-- Witness for C10: the expired-credential run returns the 401
token-expired outcome with no external call and no write-back. -/
theorem publish_expired_token_witness :
    (Publish.handler Inputs.envC10).response = .tokenExpired
    ∧ (Publish.handler Inputs.envC10).response.status = 401
    ∧ (Publish.handler Inputs.envC10).callIdxs = []
    ∧ (Publish.handler Inputs.envC10).updates = [] := by
  have h := publish_expired_token Inputs.envC10 Inputs.itemsOne "Bearer jwt"
    { access_token := some "tok", cloud_id := some "cloud-1", expires_at := some 500 }
    500 rfl (by simp [Inputs.itemsOne]) rfl rfl rfl rfl (by decide)
  exact ⟨h.1, h.2.1, h.2.2.1, h.2.2.2.1⟩

/-! Claim C4: structural credential validation. -/

/-- Counterexample to C4: a stored credential necessarily missing the
destination project key (the integrations row has no such field; this
one carries only a token and a cloud id) does not produce the
invalid-configuration outcome — the run succeeds and an external
issue-creation call is made. -/
theorem publish_config_counterexample :
    (Publish.handler Inputs.envC4).response ≠ .invalidConfig
    ∧ (Publish.handler Inputs.envC4).callIdxs = [0]
    ∧ (Publish.handler Inputs.envC4).response =
        .success [{ id := "10000", key := "PROJECT-1", summary := "Draft the rollout plan" }] none := by
  exact ⟨by decide, rfl, rfl⟩

/-- C4 as amended: the structural check covers exactly the access
token and the cloud identifier — when either is absent or empty the
handler fails fast with the distinguishable invalid-configuration 400
outcome and zero external calls; the destination project key is the
hard-coded constant of the issue payload (independent of the stored
credential, which has no project-key or account-email field). -/
theorem publish_invalid_config (env : Publish.Env)
    (items : List Publish.PublishItem) (a : String)
    (integ : Publish.Integration)
    (hreq : env.request = some items) (hne : items ≠ [])
    (hauth : env.authHeader = some a) (huser : env.userOk = true)
    (hinteg : env.integration = some integ)
    (hexp : Publish.expired integ env.now = false)
    (hmiss : strFalsy integ.access_token = true ∨ strFalsy integ.cloud_id = true) :
    (Publish.handler env).response = .invalidConfig
    ∧ (Publish.handler env).response.status = 400
    ∧ (Publish.handler env).callIdxs = []
    ∧ (Publish.handler env).updates = []
    ∧ Publish.PublishResponse.errorText .invalidConfig ≠
        Publish.PublishResponse.errorText .notConnected
    ∧ ∀ it : Publish.PublishItem, (Publish.issueData it).projectKey = "PROJECT" := by
  have hempty : items.isEmpty = false := by
    cases items with
    | nil => exact absurd rfl hne
    | cons x xs => rfl
  have hm : (strFalsy integ.access_token || strFalsy integ.cloud_id) = true := by
    rcases hmiss with h | h <;> simp [h]
  simp [Publish.handler, hreq, hempty, hauth, huser, hinteg, hexp, hm,
    Publish.PublishResponse.status, Publish.PublishResponse.errorText,
    Publish.issueData]

/-- Witness for the amended C4: a credential with no access token is
rejected as invalid configuration with zero external calls. -/
theorem publish_invalid_config_witness :
    (Publish.handler Inputs.envC4missing).response = .invalidConfig
    ∧ (Publish.handler Inputs.envC4missing).response.status = 400
    ∧ (Publish.handler Inputs.envC4missing).callIdxs = []
    ∧ (Publish.handler Inputs.envC4missing).updates = [] := by
  have h := publish_invalid_config Inputs.envC4missing Inputs.itemsOne "Bearer jwt"
    { access_token := none, cloud_id := some "cloud-1", expires_at := none }
    rfl (by simp [Inputs.itemsOne]) rfl rfl rfl rfl (Or.inl rfl)
  exact ⟨h.1, h.2.1, h.2.2.1, h.2.2.2.1⟩

end MeetAct

namespace MeetAct

/-- A falsy field falls through to the default under the or-default
projection. -/
theorem jsOr_falsy (v : Option JsonValue) (d : JsonValue)
    (h : jsFalsyOpt v = true) : jsOr v d = d := by
  cases v with
  | none => rfl
  | some x =>
    simp only [jsFalsyOpt, Bool.not_eq_true'] at h
    simp [jsOr, h]

/-- An absent or null field falls through to the default under the
nullish projection. -/
theorem jsNullish_default (v : Option JsonValue) (d : JsonValue)
    (h : v = none ∨ v = some .null) : jsNullish v d = d := by
  rcases h with h | h <;> subst h <;> rfl

/-! Claim C2: normalization defaults. -/

/-- Counterexample to C2: the persistence normalization passes an
unrecognized non-empty priority string through unchanged instead of
defaulting it to Medium, and the transcription-stage normalization
drops an item whose task text is missing instead of giving it a
placeholder label. -/
theorem extract_normalization_counterexample :
    lookupField (Extract.toInsertRow "m" "u" Inputs.rawUrgent) "priority" =
      some (.str "Urgent")
    ∧ JsonValue.str "Urgent" ≠ .str "Low"
    ∧ JsonValue.str "Urgent" ≠ .str "Medium"
    ∧ JsonValue.str "Urgent" ≠ .str "High"
    ∧ Transcribe.normalizeActionItems (some (.arr [.obj [("owner", .str "Bob")]])) = [] := by
  refine ⟨rfl, ?_, ?_, ?_, rfl⟩ <;> · intro h; injection h with h; simp at h

/-- C2 as amended: every candidate produces exactly one persisted row
(none is dropped); a missing or falsy task text is replaced by the
placeholder label; the status field is always forced to Open; a
missing or falsy priority defaults to Medium (a non-empty unrecognized
priority string passes through unchanged); and a confidence that the
upstream service omitted, or set to null, defaults to 0.8.  This
covers the normalization applied before persistence; the separate
transcription-stage normalizeActionItems instead drops placeholder
candidates and applies no priority default. -/
theorem extract_normalization (mid uid : String) (it : Extract.RawItem) :
    lookupField (Extract.toInsertRow mid uid it) "status" = some (.str "Open")
    ∧ (jsFalsyOpt it.actionItem = true →
        lookupField (Extract.toInsertRow mid uid it) "action_item" =
          some (.str "Unnamed action"))
    ∧ (jsFalsyOpt it.priority = true →
        lookupField (Extract.toInsertRow mid uid it) "priority" = some (.str "Medium"))
    ∧ ((it.confidence = none ∨ it.confidence = some .null) →
        lookupField (Extract.toInsertRow mid uid it) "confidence" = some (.num (4/5)))
    ∧ ∀ raws : List Extract.RawItem,
        (Extract.itemsToInsert mid uid raws).length = raws.length := by
  refine ⟨rfl, ?_, ?_, ?_, ?_⟩
  · intro h
    have : lookupField (Extract.toInsertRow mid uid it) "action_item" =
        some (jsOr it.actionItem (.str "Unnamed action")) := rfl
    rw [this, jsOr_falsy it.actionItem _ h]
  · intro h
    have : lookupField (Extract.toInsertRow mid uid it) "priority" =
        some (jsOr it.priority (.str "Medium")) := rfl
    rw [this, jsOr_falsy it.priority _ h]
  · intro h
    have : lookupField (Extract.toInsertRow mid uid it) "confidence" =
        some (jsNullish it.confidence (.num (4/5))) := rfl
    rw [this, jsNullish_default it.confidence _ h]
  · intro raws
    simp [Extract.itemsToInsert]

/-- Witness for the amended C2: a candidate with every field absent is
kept and normalized to the placeholder label, Medium priority, Open
status and 0.8 confidence. -/
theorem extract_normalization_witness :
    lookupField (Extract.toInsertRow "m" "u" Inputs.rawEmpty) "status" =
      some (.str "Open")
    ∧ lookupField (Extract.toInsertRow "m" "u" Inputs.rawEmpty) "action_item" =
        some (.str "Unnamed action")
    ∧ lookupField (Extract.toInsertRow "m" "u" Inputs.rawEmpty) "priority" =
        some (.str "Medium")
    ∧ lookupField (Extract.toInsertRow "m" "u" Inputs.rawEmpty) "confidence" =
        some (.num (4/5))
    ∧ (Extract.itemsToInsert "m" "u" [Inputs.rawEmpty]).length = 1 := by
  have h := extract_normalization "m" "u" Inputs.rawEmpty
  exact ⟨h.1, h.2.1 rfl, h.2.2.1 rfl, h.2.2.2.1 (Or.inl rfl),
    (h.2.2.2.2 [Inputs.rawEmpty]).trans rfl⟩

end MeetAct

namespace MeetAct

/-! Claim C3: graceful degradation on unparseable model replies. -/

/-- C3: whenever the model reply content, after fence stripping, fails
to parse as JSON, the extraction run completes with the 200 success
outcome and zero items instead of raising. -/
theorem extract_parse_failure_graceful (env : Extract.Env) (a : String)
    (htr : strFalsy env.transcript = false) (hmid : strFalsy env.meetingId = false)
    (hkey : env.apiKeyPresent = true)
    (hlo : 200 ≤ env.aiStatus) (hhi : env.aiStatus < 300)
    (hparse : env.parse (Extract.stripFences (jsStrOr env.content "[]")) = none)
    (hauth : env.authHeader = some a) (huser : env.userOk = true) :
    (Extract.handler env).response = .success [] 0
    ∧ (Extract.handler env).response.status = 200 := by
  simp only [Extract.handler, htr, hmid, hkey, hlo, hhi, hparse, hauth, huser,
    Bool.or_self, Bool.not_true, Bool.false_eq_true, reduceIte, decide_True,
    Bool.and_self]
  exact ⟨rfl, rfl⟩

end MeetAct

namespace MeetAct

/-- Witness for C3: the run whose gateway reply is prose rather than
JSON completes with success and zero items. -/
theorem extract_parse_failure_graceful_witness :
    (Extract.handler Inputs.envC3).response = .success [] 0
    ∧ (Extract.handler Inputs.envC3).response.status = 200 :=
  extract_parse_failure_graceful Inputs.envC3 "Bearer jwt" rfl rfl rfl
    (by decide) (by decide) rfl rfl rfl

/-! Claim C9: authorization versus the inference call. -/

/-- Counterexample to C9: a request with a valid transcript and
meeting id but no Authorization header does get the 401 response, yet
the upstream inference request has already been issued — the call log
of the run contains the inference call, refuting that no upstream
request is issued for an unauthorized caller. -/
theorem extract_auth_counterexample :
    (Extract.handler Inputs.envC9).response = .unauthorized
    ∧ (Extract.handler Inputs.envC9).response.status = 401
    ∧ (Extract.handler Inputs.envC9).calls = [.inference] :=
  ⟨rfl, rfl, rfl⟩

/-- C9 as amended: for every extraction request carrying a valid
transcript and meeting id but no Authorization header, the endpoint
returns 401 — but only after issuing the upstream inference request:
the gateway call precedes the authorization check, so exactly one
upstream call is made even for an unauthorized caller (whenever the
gateway answers with a success status; a gateway failure status is
surfaced instead, likewise after the call). -/
theorem extract_auth_after_inference (env : Extract.Env)
    (htr : strFalsy env.transcript = false) (hmid : strFalsy env.meetingId = false)
    (hkey : env.apiKeyPresent = true)
    (hlo : 200 ≤ env.aiStatus) (hhi : env.aiStatus < 300)
    (hauth : env.authHeader = none) :
    (Extract.handler env).response = .unauthorized
    ∧ (Extract.handler env).response.status = 401
    ∧ (Extract.handler env).calls = [.inference] := by
  simp only [Extract.handler, htr, hmid, hkey, hlo, hhi, hauth,
    Bool.or_self, Bool.not_true, Bool.false_eq_true, reduceIte, decide_True,
    Bool.and_self]
  refine ⟨?_, ?_, ?_⟩ <;> first | rfl | trivial

/-- Witness for the amended C9: the concrete unauthorized run returns
401 with the inference call already in the log. -/
theorem extract_auth_after_inference_witness :
    (Extract.handler Inputs.envC9).response = .unauthorized
    ∧ (Extract.handler Inputs.envC9).calls = [.inference] := by
  have h := extract_auth_after_inference Inputs.envC9 rfl rfl rfl
    (by decide) (by decide) rfl
  exact ⟨h.1, h.2.2⟩

end MeetAct

namespace MeetAct

/-! Claim C6: batch insert and the returned rows. -/

/-- Counterexample to C6: in a successful run persisting one row, the
actionItems field of the response is the row as sent to storage — it
carries no storage-generated identifier (no id field at all), so the
response is not the persisted set including generated identifiers. -/
theorem extract_insert_counterexample :
    (Extract.handler Inputs.envC6).response = .success [Inputs.rowC6] 1
    ∧ Extract.hasGeneratedId Inputs.rowC6 = false
    ∧ ∀ ids, (Extract.persistedRows [Inputs.rowC6] ids).all Extract.hasGeneratedId = true := by
  refine ⟨rfl, rfl, ?_⟩
  intro ids
  cases ids with
  | nil => rfl
  | cons i rest => rfl

/-- C6 as amended: every successful extraction run performs at most
one storage call — a single batch insert of the normalized rows,
issued exactly when the row list is non-empty — each inserted row is
scoped to the requested meeting id and the acting user id, the
response actionItems field is that same row list as sent to storage
(without storage-generated identifiers), and count equals its
length. -/
theorem extract_single_insert (env : Extract.Env) (a : String)
    (xs : List JsonValue) (raws : List Extract.RawItem)
    (htr : strFalsy env.transcript = false) (hmid : strFalsy env.meetingId = false)
    (hkey : env.apiKeyPresent = true)
    (hlo : 200 ≤ env.aiStatus) (hhi : env.aiStatus < 300)
    (hparse : env.parse (Extract.stripFences (jsStrOr env.content "[]")) = some (.arr xs))
    (hraws : xs.mapM Extract.toRawItem = some raws)
    (hauth : env.authHeader = some a) (huser : env.userOk = true)
    (hins : env.insertFails = false) :
    (Extract.handler env).response =
      .success (Extract.itemsToInsert (jsStrOr env.meetingId "") env.userId raws)
        (Extract.itemsToInsert (jsStrOr env.meetingId "") env.userId raws).length
    ∧ (Extract.handler env).calls =
        (if raws.isEmpty then [.inference]
         else [.inference,
               .insert (Extract.itemsToInsert (jsStrOr env.meetingId "") env.userId raws)])
    ∧ ∀ r ∈ Extract.itemsToInsert (jsStrOr env.meetingId "") env.userId raws,
        lookupField r "meeting_id" = some (.str (jsStrOr env.meetingId ""))
        ∧ lookupField r "user_id" = some (.str env.userId)
        ∧ Extract.hasGeneratedId r = false := by
  have hscope : ∀ r ∈ Extract.itemsToInsert (jsStrOr env.meetingId "") env.userId raws,
      lookupField r "meeting_id" = some (.str (jsStrOr env.meetingId ""))
      ∧ lookupField r "user_id" = some (.str env.userId)
      ∧ Extract.hasGeneratedId r = false := by
    intro r hr
    obtain ⟨it, _, rfl⟩ := List.mem_map.1 hr
    exact ⟨rfl, rfl, rfl⟩
  simp only [Extract.handler, htr, hmid, hkey, hlo, hhi, hparse, hauth, huser, hins,
    Bool.or_self, Bool.not_true, Bool.false_eq_true, reduceIte, decide_True,
    Bool.and_self, hraws]
  cases hr : raws with
  | nil => exact ⟨rfl, rfl, by simpa [hr] using hscope⟩
  | cons x rest =>
    refine ⟨?_, ?_, by simpa [hr] using hscope⟩ <;>
      simp [Extract.itemsToInsert, hr]

/-- Witness for the amended C6: the one-item run inserts exactly one
batch with the row scoped to meeting m1 and user u1, and returns that
row with count 1. -/
theorem extract_single_insert_witness :
    (Extract.handler Inputs.envC6).response = .success [Inputs.rowC6] 1
    ∧ (Extract.handler Inputs.envC6).calls = [.inference, .insert [Inputs.rowC6]]
    ∧ lookupField Inputs.rowC6 "meeting_id" = some (.str "m1")
    ∧ lookupField Inputs.rowC6 "user_id" = some (.str "u1") := by
  have h := extract_single_insert Inputs.envC6 "Bearer jwt"
    [.obj [("actionItem", .str "Ship it")]]
    [{ actionItem := some (.str "Ship it"), owner := none, ownerEmail := none,
       deadline := none, priority := none, confidence := none, notes := none }]
    rfl rfl rfl (by decide) (by decide) rfl rfl rfl rfl rfl
  refine ⟨?_, ?_, rfl, rfl⟩
  · exact h.1
  · simpa using h.2.1

end MeetAct

namespace MeetAct

/-! Infix-containment helper lemmas. -/

/-- A list that starts with a concatenation contains the second part
contiguously. -/
theorem hasInfixList_of_isPrefixList_append (p : List Char) :
    ∀ (a s : List Char), isPrefixList (a ++ p) s = true → hasInfixList p s = true := by
  intro a
  induction a with
  | nil =>
    intro s h
    cases s with
    | nil =>
      cases p with
      | nil => rfl
      | cons c cs => simp [isPrefixList] at h
    | cons c r =>
      simp only [List.nil_append] at h
      simp [hasInfixList, h]
  | cons b bs ih =>
    intro s h
    cases s with
    | nil => simp [isPrefixList] at h
    | cons c r =>
      simp only [List.cons_append, isPrefixList, Bool.and_eq_true] at h
      have := ih r h.2
      simp [hasInfixList, this]

/-- Containment of a concatenation entails containment of its second
part. -/
theorem hasInfixList_append_right (p a : List Char) :
    ∀ s : List Char, hasInfixList (a ++ p) s = true → hasInfixList p s = true := by
  intro s
  induction s with
  | nil =>
    intro h
    simp only [hasInfixList, List.isEmpty_eq_true, List.append_eq_nil] at h
    simp [hasInfixList, h.1, h.2]
  | cons c r ih =>
    intro h
    simp only [hasInfixList, Bool.or_eq_true] at h ⊢
    rcases h with h | h
    · have := hasInfixList_of_isPrefixList_append p a (c :: r) h
      simpa [hasInfixList, Bool.or_eq_true] using this
    · exact Or.inr (ih h)

end MeetAct

namespace MeetAct

/-- A string containing the phrase is-not-found also contains the
phrase not-found. -/
theorem strContains_not_found_of_is_not_found (s : String)
    (h : strContains s "is not found" = true) : strContains s "not found" = true := by
  have hsplit : ("is not found".data : List Char) = "is ".data ++ "not found".data := rfl
  unfold strContains at h ⊢
  rw [hsplit] at h
  exact hasInfixList_append_right _ _ _ h

/-- The retry predicate of the source, on an Error message, holds
exactly when the lowercased message mentions the model together with
one of the three rejection phrases of the specification (the fourth
disjunct of the source, is-not-found, is subsumed by not-found). -/
theorem shouldRetry_error_iff (message : String) :
    Transcribe.shouldRetryWithFallbackModel (.error message) = true ↔
      (strContains (sToLower message) "model" = true ∧
        (strContains (sToLower message) "not found" = true ∨
         strContains (sToLower message) "unsupported" = true ∨
         strContains (sToLower message) "permission denied" = true)) := by
  simp only [Transcribe.shouldRetryWithFallbackModel, Bool.and_eq_true, Bool.or_eq_true]
  constructor
  · rintro ⟨h1, h2⟩
    refine ⟨h1, ?_⟩
    rcases h2 with ((h | h) | h) | h
    · exact Or.inl h
    · exact Or.inr (Or.inl h)
    · exact Or.inl (strContains_not_found_of_is_not_found _ h)
    · exact Or.inr (Or.inr h)
  · rintro ⟨h1, h⟩
    refine ⟨h1, ?_⟩
    rcases h with h | h | h
    · exact Or.inl (Or.inl (Or.inl h))
    · exact Or.inl (Or.inl (Or.inr h))
    · exact Or.inr h

end MeetAct

namespace MeetAct

/-! Claim C8: single model-fallback retry. -/

/-- C8: when the primary model call fails with an Error whose
lowercased message contains the word model together with one of the
phrases not-found, unsupported or permission-denied, exactly one retry
is made against the fixed secondary model identifier; when it fails
with any other error, no retry happens and the error propagates as the
500 outcome carrying its message. -/
theorem transcription_model_fallback (env : Transcribe.Env) (meta : String × String)
    (hres : Transcribe.transcribeResolve env = .ok meta)
    (hsize : Transcribe.audioTooLarge meta.1.length = false) :
    (∀ m, env.generate (jsStrOr env.geminiModelEnv Transcribe.DEFAULT_GEMINI_MODEL) =
        .error (.error m) →
      strContains (sToLower m) "model" = true →
      (strContains (sToLower m) "not found" = true ∨
       strContains (sToLower m) "unsupported" = true ∨
       strContains (sToLower m) "permission denied" = true) →
      (Transcribe.transcribeRun env).modelCalls =
        [jsStrOr env.geminiModelEnv Transcribe.DEFAULT_GEMINI_MODEL,
         Transcribe.FALLBACK_GEMINI_MODEL])
    ∧ (∀ e, env.generate (jsStrOr env.geminiModelEnv Transcribe.DEFAULT_GEMINI_MODEL) =
        .error e →
      (∀ m, e = .error m →
        ¬(strContains (sToLower m) "model" = true ∧
          (strContains (sToLower m) "not found" = true ∨
           strContains (sToLower m) "unsupported" = true ∨
           strContains (sToLower m) "permission denied" = true))) →
      (Transcribe.transcribeRun env).modelCalls =
        [jsStrOr env.geminiModelEnv Transcribe.DEFAULT_GEMINI_MODEL]
      ∧ (Transcribe.transcribeRun env).response =
          .serverError (Transcribe.catchMessage e)) := by
  constructor
  · intro m hgen h1 h2
    have hretry : Transcribe.shouldRetryWithFallbackModel (.error m) = true :=
      (shouldRetry_error_iff m).2 ⟨h1, h2⟩
    simp only [Transcribe.transcribeRun, hres, hsize, Bool.false_eq_true, reduceIte,
      hgen, hretry]
    cases env.generate Transcribe.FALLBACK_GEMINI_MODEL <;> rfl
  · intro e hgen hnot
    have hretry : Transcribe.shouldRetryWithFallbackModel e = false := by
      cases e with
      | other => rfl
      | error m =>
        rcases h : Transcribe.shouldRetryWithFallbackModel (.error m) with _ | _
        · rfl
        · exact absurd ((shouldRetry_error_iff m).1 h) (hnot m rfl)
    simp only [Transcribe.transcribeRun, hres, hsize, Bool.false_eq_true, reduceIte,
      hgen, hretry]
    refine ⟨?_, ?_⟩ <;> first | rfl | trivial

/-- Witness for C8: a primary failure mentioning a missing model
triggers exactly one retry against the fixed secondary identifier,
while an unrelated failure propagates with no retry. -/
theorem transcription_model_fallback_witness :
    (Transcribe.transcribeRun Inputs.envC8match).modelCalls =
      [Transcribe.DEFAULT_GEMINI_MODEL, Transcribe.FALLBACK_GEMINI_MODEL]
    ∧ (Transcribe.transcribeRun Inputs.envC8other).modelCalls =
        [Transcribe.DEFAULT_GEMINI_MODEL]
    ∧ (Transcribe.transcribeRun Inputs.envC8other).response =
        .serverError "quota exceeded" := by
  have h1 := (transcription_model_fallback Inputs.envC8match ("AAAA", "audio/mpeg")
    rfl (by decide)).1 "Model gemini-1.5-flash is not found for API version v1"
    rfl (by decide) (Or.inl (by decide))
  have h2 := (transcription_model_fallback Inputs.envC8other ("AAAA", "audio/mpeg")
    rfl (by decide)).2 (.error "quota exceeded") rfl
    (by intro m hm; injection hm with hm; subst hm; decide)
  exact ⟨h1, h2.1, h2.2⟩

end MeetAct

namespace MeetAct

/-- The response assembled after a model reply is never the 413
payload-too-large outcome. -/
theorem finishTranscription_ne_tooLarge (env : Transcribe.Env) (t u : String) :
    Transcribe.finishTranscription env t u ≠ .tooLarge := by
  unfold Transcribe.finishTranscription
  repeat' split
  all_goals dsimp only
  all_goals split_ifs <;> simp

/-! Claim C5: the 25 MB payload gate. -/

/-- Counterexample to C5: a payload whose decoded size is exactly
25 MB, carried in the standard padded base64 encoding, is rejected by
the size gate (25 MB is not a multiple of three, so the estimate
counts the two padding characters as data and exceeds the limit). -/
theorem transcription_size_counterexample :
    Transcribe.MAX_AUDIO_BYTES = 26214400
    ∧ Transcribe.audioTooLarge (Transcribe.paddedB64Len 26214400) = true := by
  exact ⟨rfl, by decide⟩

/-- C5 as amended: every payload of decoded size at least 25 MB plus
one byte is rejected, padded or unpadded; a payload of decoded size
exactly 25 MB is accepted when its base64 encoding is unpadded but
rejected when padded (the estimate counts padding characters); and the
413 rejection precedes inference — no run that issued a model call is
the too-large outcome. -/
theorem transcription_size_gate :
    (∀ n, 26214401 ≤ n →
        Transcribe.audioTooLarge (Transcribe.paddedB64Len n) = true
        ∧ Transcribe.audioTooLarge (Transcribe.unpaddedB64Len n) = true)
    ∧ Transcribe.audioTooLarge (Transcribe.unpaddedB64Len 26214400) = false
    ∧ Transcribe.audioTooLarge (Transcribe.paddedB64Len 26214400) = true
    ∧ ∀ env : Transcribe.Env, (Transcribe.transcribeRun env).modelCalls ≠ [] →
        (Transcribe.transcribeRun env).response ≠ .tooLarge := by
  refine ⟨?_, by decide, by decide, ?_⟩
  · intro n hn
    constructor <;>
      · simp only [Transcribe.audioTooLarge, Transcribe.estimatedAudioBytes,
          Transcribe.paddedB64Len, Transcribe.unpaddedB64Len, Transcribe.MAX_AUDIO_BYTES,
          decide_eq_true_eq]
        omega
  · intro env hne
    unfold Transcribe.transcribeRun at hne ⊢
    cases hres : Transcribe.transcribeResolve env with
    | error r => simp [hres] at hne
    | ok meta =>
      simp only [hres] at hne ⊢
      by_cases hsz : Transcribe.audioTooLarge meta.1.length = true
      · simp [hsz] at hne
      · have hsz' : Transcribe.audioTooLarge meta.1.length = false := by
          simpa using hsz
        simp only [hsz', Bool.false_eq_true, reduceIte] at hne ⊢
        cases hgen : env.generate (jsStrOr env.geminiModelEnv Transcribe.DEFAULT_GEMINI_MODEL) with
        | ok t =>
          simp only [hgen]
          exact finishTranscription_ne_tooLarge env t _
        | error e =>
          simp only [hgen]
          by_cases hr : Transcribe.shouldRetryWithFallbackModel e = true
          · simp only [hr, reduceIte]
            cases hfb : env.generate Transcribe.FALLBACK_GEMINI_MODEL with
            | ok t =>
              simp only [hfb]
              exact finishTranscription_ne_tooLarge env t _
            | error e2 => simp [hfb]
          · have hr' : Transcribe.shouldRetryWithFallbackModel e = false := by
              simpa using hr
            simp [hr']

/-- Witness for the amended C5: 25 MB plus one byte is rejected,
exactly 25 MB unpadded is accepted, and a run that called the model is
not the 413 outcome. -/
theorem transcription_size_gate_witness :
    Transcribe.audioTooLarge (Transcribe.paddedB64Len 26214401) = true
    ∧ Transcribe.audioTooLarge (Transcribe.unpaddedB64Len 26214400) = false
    ∧ (Transcribe.transcribeRun Inputs.envTiny).response ≠ .tooLarge := by
  refine ⟨(transcription_size_gate.1 26214401 (by decide)).1,
    transcription_size_gate.2.1, ?_⟩
  exact transcription_size_gate.2.2.2 Inputs.envTiny (by decide)

end MeetAct

namespace MeetAct

/-- The media type captured out of a data-URI match is never the
empty string. -/
theorem parseDataUrl_mime_nonempty (s m d : String)
    (h : Transcribe.parseDataUrl s = some (m, d)) : m ≠ "" := by
  unfold Transcribe.parseDataUrl at h
  repeat' split at h
  all_goals try simp_all
  obtain ⟨h1, h2, h3, h4, hm, h6⟩ := h
  subst hm
  exact h1

/-- Without a data-URI payload the resolved media type is the one
inferMimeType produced. -/
theorem resolveAudioMeta_no_datauri (fn : String) (req b64 : Option String)
    (h : b64 = none ∨ ∃ r, b64 = some r ∧
        (sTrim r = "" ∨ Transcribe.parseDataUrl (sTrim r) = none)) :
    (Transcribe.resolveAudioMeta fn req b64).2 = Transcribe.inferMimeType fn req := by
  rcases h with rfl | ⟨r, rfl, hr⟩
  · simp [Transcribe.resolveAudioMeta, Transcribe.parseBase64Payload, jsStrOr, ite_self]
  · by_cases h0 : sTrim r = ""
    · simp [Transcribe.resolveAudioMeta, Transcribe.parseBase64Payload, h0, jsStrOr, ite_self]
    · rcases hr with hr | hr
      · exact absurd hr h0
      · simp [Transcribe.resolveAudioMeta, Transcribe.parseBase64Payload, h0, hr,
          jsStrOr, ite_self]

/-! Claim C7: media type resolution order. -/

/-- Counterexample to C7: with both an explicit caller-supplied type
and a data-URI-embedded type present, the embedded type wins, not the
explicit one. -/
theorem mime_resolution_counterexample :
    (Transcribe.resolveAudioMeta "meeting.mp3" (some "audio/wav")
        (some "data:audio/ogg;base64,AAAA")).2 = "audio/ogg"
    ∧ (Transcribe.resolveAudioMeta "meeting.mp3" (some "audio/wav")
        (some "data:audio/ogg;base64,AAAA")).2 ≠ "audio/wav" := by
  exact ⟨rfl, by decide⟩

/-- C7 as amended: the resolved media type is determined in this
order — the type embedded in a data-URI prefix of the inline payload
first; otherwise the explicit caller-supplied type (trimmed, when not
blank); otherwise the extension table, read in cascade (wav, m4a, mp3,
ogg, webm); otherwise the default audio/mpeg.  In particular, when
both an explicit type and a data-URI type are present the data-URI
type wins. -/
theorem mime_resolution_order (fn : String) (req b64 : Option String) :
    (∀ r m d, b64 = some r → Transcribe.parseDataUrl (sTrim r) = some (m, d) →
        (Transcribe.resolveAudioMeta fn req b64).2 = m)
    ∧ ((b64 = none ∨ ∃ r, b64 = some r ∧
          (sTrim r = "" ∨ Transcribe.parseDataUrl (sTrim r) = none)) →
        (∀ p, req = some p → sTrim p ≠ "" →
            (Transcribe.resolveAudioMeta fn req b64).2 = sTrim p)
        ∧ ((req = none ∨ ∃ p, req = some p ∧ sTrim p = "") →
            (Transcribe.resolveAudioMeta fn req b64).2 = Transcribe.extMimeType fn))
    ∧ (sEndsWith (sToLower fn) ".wav" = true → Transcribe.extMimeType fn = "audio/wav")
    ∧ (sEndsWith (sToLower fn) ".wav" = false →
        sEndsWith (sToLower fn) ".m4a" = true → Transcribe.extMimeType fn = "audio/mp4")
    ∧ (sEndsWith (sToLower fn) ".wav" = false → sEndsWith (sToLower fn) ".m4a" = false →
        sEndsWith (sToLower fn) ".mp3" = true → Transcribe.extMimeType fn = "audio/mpeg")
    ∧ (sEndsWith (sToLower fn) ".wav" = false → sEndsWith (sToLower fn) ".m4a" = false →
        sEndsWith (sToLower fn) ".mp3" = false →
        sEndsWith (sToLower fn) ".ogg" = true → Transcribe.extMimeType fn = "audio/ogg")
    ∧ (sEndsWith (sToLower fn) ".wav" = false → sEndsWith (sToLower fn) ".m4a" = false →
        sEndsWith (sToLower fn) ".mp3" = false → sEndsWith (sToLower fn) ".ogg" = false →
        sEndsWith (sToLower fn) ".webm" = true → Transcribe.extMimeType fn = "audio/webm")
    ∧ (sEndsWith (sToLower fn) ".wav" = false → sEndsWith (sToLower fn) ".m4a" = false →
        sEndsWith (sToLower fn) ".mp3" = false → sEndsWith (sToLower fn) ".ogg" = false →
        sEndsWith (sToLower fn) ".webm" = false →
        Transcribe.extMimeType fn = "audio/mpeg") := by
  refine ⟨?_, ?_, ?_, ?_, ?_, ?_, ?_, ?_⟩
  · intro r m d hb hp
    subst hb
    have hne : sTrim r ≠ "" := by
      intro h0
      have hnone : Transcribe.parseDataUrl "" = none := rfl
      rw [h0, hnone] at hp
      cases hp
    have hm : m ≠ "" := parseDataUrl_mime_nonempty _ _ _ hp
    simp [Transcribe.resolveAudioMeta, Transcribe.parseBase64Payload, hne, hp, jsStrOr, hm]
  · intro hnd
    have hbase := resolveAudioMeta_no_datauri fn req b64 hnd
    constructor
    · intro p hp hpt
      rw [hbase, hp]
      simp [Transcribe.inferMimeType, hpt]
    · intro hreq
      rw [hbase]
      rcases hreq with rfl | ⟨p, rfl, hp⟩
      · rfl
      · simp [Transcribe.inferMimeType, hp]
  · intro h; simp [Transcribe.extMimeType, h]
  · intro h1 h2; simp [Transcribe.extMimeType, h1, h2]
  · intro h1 h2 h3; simp [Transcribe.extMimeType, h1, h2, h3]
  · intro h1 h2 h3 h4; simp [Transcribe.extMimeType, h1, h2, h3, h4]
  · intro h1 h2 h3 h4 h5; simp [Transcribe.extMimeType, h1, h2, h3, h4, h5]
  · intro h1 h2 h3 h4 h5; simp [Transcribe.extMimeType, h1, h2, h3, h4, h5]

/-- Witness for the amended C7: the data-URI type wins over the
explicit one; the explicit type wins when no data-URI is present; the
extension table applies when neither is given; and an unknown
extension falls to the default. -/
theorem mime_resolution_order_witness :
    (Transcribe.resolveAudioMeta "meeting.mp3" (some "audio/wav")
        (some "data:audio/ogg;base64,AAAA")).2 = "audio/ogg"
    ∧ (Transcribe.resolveAudioMeta "meeting.mp3" (some "audio/wav") (some "AAAA")).2 =
        "audio/wav"
    ∧ (Transcribe.resolveAudioMeta "take.WAV" none none).2 = "audio/wav"
    ∧ (Transcribe.resolveAudioMeta "notes.txt" none none).2 = "audio/mpeg" := by
  refine ⟨?_, ?_, ?_, ?_⟩
  · exact (mime_resolution_order "meeting.mp3" (some "audio/wav")
      (some "data:audio/ogg;base64,AAAA")).1 "data:audio/ogg;base64,AAAA"
      "audio/ogg" "AAAA" rfl rfl
  · exact ((mime_resolution_order "meeting.mp3" (some "audio/wav") (some "AAAA")).2.1
      (Or.inr ⟨"AAAA", rfl, Or.inr rfl⟩)).1 "audio/wav" rfl (by decide)
  · have h := (mime_resolution_order "take.WAV" none none).2.1 (Or.inl rfl)
    have h2 := (mime_resolution_order "take.WAV" none none).2.2.1 (by decide)
    exact (h.2 (Or.inl rfl)).trans h2
  · have h := (mime_resolution_order "notes.txt" none none).2.1 (Or.inl rfl)
    have h2 := (mime_resolution_order "notes.txt" none none).2.2.2.2.2.2.2
      (by decide) (by decide) (by decide) (by decide) (by decide)
    exact (h.2 (Or.inl rfl)).trans h2

end MeetAct
